import Mathlib

/-!
Shallow embedding of the SquidASM qoala network-stack core
(src/squidasm/qoala/sim/common.py and src/squidasm/qoala/sim/netstack.py),
together with theorems checking the natural-language specification's claims
about the qubit-memory allocator, the port listener, the create-and-keep and
measure-directly request handlers, and the breakpoint rendezvous protocol.
-/

namespace Squidasm

/-- Error raised by the physical-memory allocator; embeds class `AllocError`
of src/squidasm/qoala/sim/common.py. The string is the Python exception
message. -/
inductive AllocError where
  | exhausted (msg : String)
  deriving DecidableEq

/-- Message of the exception raised by `PhysicalQuantumMemory.allocate`. -/
def msgNoQubits : String := "No more qubits available"

/-- Message of the exception raised by `PhysicalQuantumMemory.allocate_comm`. -/
def msgNoCommQubits : String := "No more comm qubits available"

/-- Message of the exception raised by `PhysicalQuantumMemory.allocate_mem`. -/
def msgNoMemQubits : String := "No more mem qubits available"

/-- First-fit search over `lo, lo+1, ..., lo+fuel-1`: the embedding of the
Python loops `for i in range(n): if p(i): return i` used by the three
allocation methods of `PhysicalQuantumMemory` (common.py lines 125-147). -/
def findFrom (p : Nat → Bool) : Nat → Nat → Option Nat
  | _, 0 => none
  | lo, fuel + 1 => if p lo then some lo else findFrom p (lo + 1) fuel

/-- The fixed-capacity qubit-slot pool; embeds class `PhysicalQuantumMemory`
of src/squidasm/qoala/sim/common.py (lines 111-156): a capacity
`qubit_count`, the set of currently allocated slot ids, and the subset of
slot ids that are communication-capable. -/
structure PhysicalQuantumMemory where
  qubit_count : Nat
  allocated_ids : Finset Nat
  comm_qubit_ids : Finset Nat
  deriving DecidableEq

/-- Constructor of the base `PhysicalQuantumMemory` (common.py lines 112-115):
no slot allocated, and the communication subset is the full slot set
`{i for i in range(qubit_count)}`. -/
def PhysicalQuantumMemory.init (qubit_count : Nat) : PhysicalQuantumMemory :=
  { qubit_count := qubit_count
    allocated_ids := ∅
    comm_qubit_ids := Finset.range qubit_count }

/-- Constructor of the `NVPhysicalQuantumMemory` variant (common.py lines
159-162): same as the base constructor but the communication subset is
restricted to the single slot 0. -/
def NVPhysicalQuantumMemory.init (qubit_count : Nat) : PhysicalQuantumMemory :=
  { PhysicalQuantumMemory.init qubit_count with comm_qubit_ids := {0} }

/-- `PhysicalQuantumMemory.allocate` (common.py lines 125-131): first free
slot id in `range(qubit_count)`, lowest first; adds it to the allocated set.
If none is free it raises `AllocError`, leaving the state unchanged (the
Python method mutates the set only just before returning). The pair returned
is (result-or-exception, state of the object after the call). -/
def PhysicalQuantumMemory.allocate (m : PhysicalQuantumMemory) :
    Except AllocError Nat × PhysicalQuantumMemory :=
  match findFrom (fun i => decide (i ∉ m.allocated_ids)) 0 m.qubit_count with
  | some i => (Except.ok i, { m with allocated_ids := insert i m.allocated_ids })
  | none => (Except.error (AllocError.exhausted msgNoQubits), m)

/-- `PhysicalQuantumMemory.allocate_comm` (common.py lines 133-139): first
slot id in `range(qubit_count)` that is free and in the communication
subset. -/
def PhysicalQuantumMemory.allocate_comm (m : PhysicalQuantumMemory) :
    Except AllocError Nat × PhysicalQuantumMemory :=
  match findFrom
      (fun i => decide (i ∉ m.allocated_ids ∧ i ∈ m.comm_qubit_ids))
      0 m.qubit_count with
  | some i => (Except.ok i, { m with allocated_ids := insert i m.allocated_ids })
  | none => (Except.error (AllocError.exhausted msgNoCommQubits), m)

/-- `PhysicalQuantumMemory.allocate_mem` (common.py lines 141-147): first
slot id in `range(qubit_count)` that is free and not in the communication
subset. -/
def PhysicalQuantumMemory.allocate_mem (m : PhysicalQuantumMemory) :
    Except AllocError Nat × PhysicalQuantumMemory :=
  match findFrom
      (fun i => decide (i ∉ m.allocated_ids ∧ i ∉ m.comm_qubit_ids))
      0 m.qubit_count with
  | some i => (Except.ok i, { m with allocated_ids := insert i m.allocated_ids })
  | none => (Except.error (AllocError.exhausted msgNoMemQubits), m)

/-- `PhysicalQuantumMemory.free` (common.py lines 149-150):
`self._allocated_ids.remove(id)`. Python `set.remove` raises `KeyError` when
the element is absent; that fault is modelled by `none`. -/
def PhysicalQuantumMemory.free (m : PhysicalQuantumMemory) (id : Nat) :
    Option PhysicalQuantumMemory :=
  if id ∈ m.allocated_ids then
    some { m with allocated_ids := m.allocated_ids.erase id }
  else none

/-- `PhysicalQuantumMemory.is_allocated` (common.py lines 152-153). -/
def PhysicalQuantumMemory.is_allocated (m : PhysicalQuantumMemory) (id : Nat) : Bool :=
  decide (id ∈ m.allocated_ids)

/-- One `Port.rx_input()` return value: a single input event carrying a list
of message items (netsquid message `items`). -/
structure PortInput where
  items : List String
  deriving DecidableEq

/-- Actions performed by `PortListener.run` during one wake episode. -/
inductive ListenerAction where
  | awaitPortInput
  | sendSignal (label : String)
  deriving DecidableEq

/-- Inner drain loop of `PortListener.run` (common.py lines 31-36): read
inputs until `rx_input()` returns None, appending each input's items to the
buffer and counting the inputs read. Returns the new buffer and the count. -/
def drain_inputs : List PortInput → List String → List String × Nat
  | [], buf => (buf, 0)
  | inp :: rest, buf =>
    let r := drain_inputs rest (buf ++ inp.items)
    (r.1, r.2 + 1)

/-- One wake episode of `PortListener.run` (common.py lines 24-45): yield on
one input event, drain all pending inputs into the buffer, yield on the
`counter - 1` remaining input events (flushing them), then send exactly one
notification signal. Returns the episode's actions and the buffer after
it. -/
def listener_wake_episode (signal_label : String) (pending : List PortInput)
    (buffer : List String) : List ListenerAction × List String :=
  let r := drain_inputs pending buffer
  (ListenerAction.awaitPortInput
      :: (List.replicate (r.2 - 1) ListenerAction.awaitPortInput
          ++ [ListenerAction.sendSignal signal_label]),
   r.1)

/-- Predicate selecting the notification-signal actions of a listener
episode. -/
def is_send_signal : ListenerAction → Bool
  | ListenerAction.sendSignal _ => true
  | _ => false

/-- `ComponentProtocol._receive_msg` (common.py lines 59-65): if the
listener's buffer is non-empty, `pop(0)` the oldest message without
suspending; otherwise suspend on the listener's wake-up signal (while
suspended the listener appends `arrivals` to the empty buffer) and then
`pop(0)` the oldest message. The Bool records whether the call suspended;
`none` models the case where the wake fires with nothing buffered (a
`pop` from an empty list, a fault in Python). -/
def receive_msg (buffer arrivals : List String) :
    Option (String × List String × Bool) :=
  match buffer with
  | msg :: rest => some (msg, rest, false)
  | [] =>
    match arrivals with
    | msg :: rest => some (msg, rest, true)
    | [] => none

/-- Repeated `_receive_msg` calls against one listener buffer with no
interleaved arrivals: the messages returned, in order, and the remaining
buffer. -/
def receive_msgs : Nat → List String → Option (List String × List String)
  | 0, buffer => some ([], buffer)
  | n + 1, buffer =>
    match receive_msg buffer [] with
    | none => none
    | some (msg, rest, _) =>
      match receive_msgs n rest with
      | none => none
      | some (out, rem) => some (msg :: out, rem)

/-- Truncation toward zero of a rational: the behaviour of Python `int()`
applied to `gen_duration_ns_float / 1000` (netstack.py line 328), with the
float modelled as a rational. -/
def int_trunc (x : Rat) : Int := if 0 ≤ x then Int.floor x else -Int.floor (-x)

/-- Bell-state index reported by the EGP (netsquid `BellIndex`). -/
inductive BellIndex where
  | B00
  | B01
  | B10
  | B11
  deriving DecidableEq

/-- Integer value of a Bell index (`BellIndex` is a Python IntEnum with
B00 = 0, B01 = 1, B10 = 2, B11 = 3); this is what an array write of
`result.bell_state` or `result.bell_state.value` stores. -/
def bellValue : BellIndex → Int
  | BellIndex.B00 => 0
  | BellIndex.B01 => 1
  | BellIndex.B10 => 2
  | BellIndex.B11 => 3

/-- NetSquid instructions used by the Bell-correction programs
(`INSTR_ROT_X`, `INSTR_ROT_Z`). -/
inductive NSInstr where
  | ROT_X
  | ROT_Z
  deriving DecidableEq

/-- Angle constants appearing in the netstack's quantum programs: only `PI`
(from squidasm.qoala.sim.constants). -/
inductive AngleConst where
  | PI
  deriving DecidableEq

/-- One instruction of a netsquid `QuantumProgram`, as built by
`prog.apply(instr, qubit_indices=[...], angle=...)`. -/
structure QProgInstr where
  instr : NSInstr
  qubit_indices : List Nat
  angle : AngleConst
  deriving DecidableEq

/-- The processor notification sent after populating a result-array
segment. -/
def wroteToArrayMsg : String := "wrote to array"

/-- Side effects of the CK / MD request handlers, in program order. -/
inductive NetAction where
  | awaitMemoryFreed
  | putEgpRequest
  | putEgpReceive
  | awaitEgpResult
  | executeProgram (prog : List QProgInstr)
  | mapVirtId (virt : Int) (phys : Nat)
  | setArrayValue (addr : Nat) (index : Nat) (value : Int)
  | sendProcessorMsg (content : String)
  deriving DecidableEq

/-- An uncaught Python exception escaping a handler: an `AllocError` from
an unguarded `allocate_comm`, or a `KeyError` from `set.remove`. -/
inductive PyFault where
  | allocExhausted (e : AllocError)
  | keyError (id : Nat)
  deriving DecidableEq

/-- Outcome of a handler run driven by a finite supply of environment
inputs: completed with a value, still suspended at an await point after the
supplied inputs ran out, or terminated by an uncaught Python exception. -/
inductive HandlerOutcome (α : Type) where
  | finished (a : α)
  | suspended
  | fault (e : PyFault)
  deriving DecidableEq

/-- The trace of a finished handler run (empty otherwise). -/
def outcome_trace :
    HandlerOutcome (List NetAction × PhysicalQuantumMemory) → List NetAction
  | HandlerOutcome.finished (tr, _) => tr
  | _ => []

/-- Whether a handler run completed. -/
def is_finished {α : Type} : HandlerOutcome α → Bool
  | HandlerOutcome.finished _ => true
  | _ => false

/-- Sequencing of handler steps: pass the value of a finished step to the
rest of the handler; a suspension or an uncaught exception in the step makes
the whole handler suspend or fault (ordinary Python control flow between
statements). -/
def ho_then {α β : Type} (x : HandlerOutcome α) (f : α → HandlerOutcome β) :
    HandlerOutcome β :=
  match x with
  | HandlerOutcome.finished a => f a
  | HandlerOutcome.suspended => HandlerOutcome.suspended
  | HandlerOutcome.fault e => HandlerOutcome.fault e

/-- The comm-qubit acquisition retry loop of the two CK handlers
(netstack.py lines 272-286 and 504-518): try `allocate_comm`; on AllocError
(caught by the `except AllocError` branch) suspend on SIGNAL_MEMORY_FREED
and retry. `env` is the sequence of memory states observed at each wake-up
(the processor may free slots while the handler is suspended); when it is
exhausted without a successful allocation the handler is still suspended at
the `yield`. On success: the number of waits taken, the allocated physical
id, and the memory state after the allocation. -/
def retry_allocate_comm :
    PhysicalQuantumMemory → List PhysicalQuantumMemory →
      HandlerOutcome (Nat × Nat × PhysicalQuantumMemory)
  | m, [] =>
    match m.allocate_comm with
    | (Except.ok i, m2) => HandlerOutcome.finished (0, i, m2)
    | (Except.error _, _) => HandlerOutcome.suspended
  | m, m2 :: env =>
    match m.allocate_comm with
    | (Except.ok i, mz) => HandlerOutcome.finished (0, i, mz)
    | (Except.error _, _) =>
      match retry_allocate_comm m2 env with
      | HandlerOutcome.finished (w, i, mf) => HandlerOutcome.finished (w + 1, i, mf)
      | r => r

/-- Static inputs of a CK handler run: the result-array address, the
response-slice constants imported from netqasm (`SER_RESPONSE_KEEP_LEN`,
`SER_RESPONSE_KEEP_IDX_GOODNESS`, `SER_RESPONSE_KEEP_IDX_BELL_STATE`,
treated as parameters of the embedding), the qubit-id array (the virtual id
read from shared memory at each pair index), and
`start_time = ns.sim_time()` taken once before the pair loop (netstack.py
lines 268 and 500). -/
structure CKConfig where
  result_array_addr : Nat
  slice_len : Nat
  idx_goodness : Nat
  idx_bell_state : Nat
  qubit_array : Nat → Int
  start_time : Rat

/-- Per-pair inputs of a CK handler run: the Bell index reported by the EGP
for the pair, and the simulation time `ns.sim_time()` at which the pair's
result is processed. -/
structure CKPairInput where
  bell : BellIndex
  res_time : Rat
  deriving DecidableEq

/-- Value written at offset `i` of a CK response slice (netstack.py lines
335-343): -1, overwritten by the goodness/duration value when
`i == SER_RESPONSE_KEEP_IDX_GOODNESS` and by the Bell index when
`i == SER_RESPONSE_KEEP_IDX_BELL_STATE` (two independent `if`s, in that
order). -/
def ck_slice_value (cfg : CKConfig) (dur_us bell_val : Int) (i : Nat) : Int :=
  let value : Int := -1
  let value := if i = cfg.idx_goodness then dur_us else value
  let value := if i = cfg.idx_bell_state then bell_val else value
  value

/-- The microsecond duration `int(gen_duration_ns_float / 1000)` with
`gen_duration_ns_float = ns.sim_time() - start_time` (netstack.py lines
327-328 and 546-547). -/
def gen_duration_us (start_time res_time : Rat) : Int :=
  int_trunc ((res_time - start_time) / 1000)

/-- The result-array writes of one CK pair (netstack.py lines 335-348): for
each `i < slice_len`, write `ck_slice_value` at array offset
`slice_len * pair_index + i` of the result array. -/
def ck_result_writes (cfg : CKConfig) (pair_index : Nat) (dur_us bell_val : Int) :
    List NetAction :=
  (List.range cfg.slice_len).map fun i =>
    NetAction.setArrayValue cfg.result_array_addr (cfg.slice_len * pair_index + i)
      (ck_slice_value cfg dur_us bell_val i)

/-- Bell-state correction of the CK create handler (netstack.py lines
304-319): nothing for B00 (`pass`); one program with an X PI-rotation for
B01; one with a Z PI-rotation for B10; one with an X then a Z PI-rotation
for B11; each executed on the qdevice (the handler suspends until the
program completes). -/
def ck_correction_actions : BellIndex → List NetAction
  | BellIndex.B00 => []
  | BellIndex.B01 =>
    [NetAction.executeProgram [⟨NSInstr.ROT_X, [0], AngleConst.PI⟩]]
  | BellIndex.B10 =>
    [NetAction.executeProgram [⟨NSInstr.ROT_Z, [0], AngleConst.PI⟩]]
  | BellIndex.B11 =>
    [NetAction.executeProgram [⟨NSInstr.ROT_X, [0], AngleConst.PI⟩,
      ⟨NSInstr.ROT_Z, [0], AngleConst.PI⟩]]

/-- Actions of one iteration of the CK create handler's pair loop
(netstack.py lines 270-353): the retry loop's waits, putting the 1-pair
request to the EGP, awaiting the EGP result, the Bell correction, mapping
the virtual qubit id (read from the qubit array at the pair index) to the
allocated physical id, the result-array writes (line 343 stores
`result.bell_state`, an IntEnum, i.e. its integer value) and the processor
notification. -/
def ck_create_pair_trace (cfg : CKConfig) (pair_index : Nat) (pd : CKPairInput)
    (waits phys : Nat) : List NetAction :=
  List.replicate waits NetAction.awaitMemoryFreed
    ++ [NetAction.putEgpRequest, NetAction.awaitEgpResult]
    ++ ck_correction_actions pd.bell
    ++ [NetAction.mapVirtId (cfg.qubit_array pair_index) phys]
    ++ ck_result_writes cfg pair_index
        (gen_duration_us cfg.start_time pd.res_time) (bellValue pd.bell)
    ++ [NetAction.sendProcessorMsg wroteToArrayMsg]

/-- Actions of one iteration of the CK receive handler's pair loop
(netstack.py lines 502-571): as the create side, except that the EGP is
given a `ReqReceive` and no correction program of any kind is applied. -/
def ck_receive_pair_trace (cfg : CKConfig) (pair_index : Nat) (pd : CKPairInput)
    (waits phys : Nat) : List NetAction :=
  List.replicate waits NetAction.awaitMemoryFreed
    ++ [NetAction.putEgpReceive, NetAction.awaitEgpResult]
    ++ [NetAction.mapVirtId (cfg.qubit_array pair_index) phys]
    ++ ck_result_writes cfg pair_index
        (gen_duration_us cfg.start_time pd.res_time) (bellValue pd.bell)
    ++ [NetAction.sendProcessorMsg wroteToArrayMsg]

/-- Pair loop of the CK create handler: one pair at a time; a comm slot is
acquired through the retry loop before each pair. `envs` supplies, per pair,
the memory states observed at the SIGNAL_MEMORY_FREED wake-ups of that
pair's retry loop. -/
def ck_create_loop (cfg : CKConfig) :
    Nat → List CKPairInput → List (List PhysicalQuantumMemory) →
      PhysicalQuantumMemory →
      HandlerOutcome (List NetAction × PhysicalQuantumMemory)
  | _, [], _, m => HandlerOutcome.finished ([], m)
  | pair_index, pd :: rest, envs, m =>
    ho_then (retry_allocate_comm m (envs.headD [])) fun r =>
      ho_then (ck_create_loop cfg (pair_index + 1) rest envs.tail r.2.2) fun p =>
        HandlerOutcome.finished
          (ck_create_pair_trace cfg pair_index pd r.1 r.2.1 ++ p.1, p.2)

/-- `Netstack.handle_create_ck_request` (netstack.py lines 230-353): handle
all pairs of a CK request as the initiator, one pair at a time. -/
def handle_create_ck_request (cfg : CKConfig) (pairs : List CKPairInput)
    (envs : List (List PhysicalQuantumMemory)) (m : PhysicalQuantumMemory) :
    HandlerOutcome (List NetAction × PhysicalQuantumMemory) :=
  ck_create_loop cfg 0 pairs envs m

/-- Pair loop of the CK receive handler, mirroring `ck_create_loop`. -/
def ck_receive_loop (cfg : CKConfig) :
    Nat → List CKPairInput → List (List PhysicalQuantumMemory) →
      PhysicalQuantumMemory →
      HandlerOutcome (List NetAction × PhysicalQuantumMemory)
  | _, [], _, m => HandlerOutcome.finished ([], m)
  | pair_index, pd :: rest, envs, m =>
    ho_then (retry_allocate_comm m (envs.headD [])) fun r =>
      ho_then (ck_receive_loop cfg (pair_index + 1) rest envs.tail r.2.2) fun p =>
        HandlerOutcome.finished
          (ck_receive_pair_trace cfg pair_index pd r.1 r.2.1 ++ p.1, p.2)

/-- `Netstack.handle_receive_ck_request` (netstack.py lines 466-571): handle
all pairs of a CK request as the receiver, one pair at a time. -/
def handle_receive_ck_request (cfg : CKConfig) (pairs : List CKPairInput)
    (envs : List (List PhysicalQuantumMemory)) (m : PhysicalQuantumMemory) :
    HandlerOutcome (List NetAction × PhysicalQuantumMemory) :=
  ck_receive_loop cfg 0 pairs envs m

/-- Result of one measure-directly pair as reported by the EGP
(`ResMeasureDirectly`): measurement outcome, measurement basis (stored via
`.value`) and Bell index. -/
structure MDResult where
  measurement_outcome : Int
  measurement_basis : Int
  bell_state : BellIndex
  deriving DecidableEq

/-- Static inputs of an MD handler run: the result-array address and the
response-slice constants imported from netqasm
(`SER_RESPONSE_MEASURE_LEN`, `SER_RESPONSE_MEASURE_IDX_MEASUREMENT_OUTCOME`,
`SER_RESPONSE_MEASURE_IDX_MEASUREMENT_BASIS` and — exactly as in the source,
netstack.py lines 424 and 640 — `SER_RESPONSE_KEEP_IDX_BELL_STATE` for the
Bell-state offset), treated as parameters of the embedding. -/
structure MDConfig where
  result_array_addr : Nat
  slice_len : Nat
  idx_outcome : Nat
  idx_basis : Nat
  idx_bell_state : Nat
  deriving DecidableEq

/-- Value written at offset `i` of an MD response slice (netstack.py lines
415-425): the measurement outcome, else the measurement basis, else the
Bell index (an `if`/`elif`/`elif` chain), else the sentinel -1. -/
def md_slice_value (cfg : MDConfig) (r : MDResult) (i : Nat) : Int :=
  if i = cfg.idx_outcome then r.measurement_outcome
  else if i = cfg.idx_basis then r.measurement_basis
  else if i = cfg.idx_bell_state then bellValue r.bell_state
  else -1

/-- The result-array writes of one MD pair (netstack.py lines 412-430). -/
def md_result_writes (cfg : MDConfig) (pair_index : Nat) (r : MDResult) :
    List NetAction :=
  (List.range cfg.slice_len).map fun i =>
    NetAction.setArrayValue cfg.result_array_addr (cfg.slice_len * pair_index + i)
      (md_slice_value cfg r i)

/-- The per-pair acquisition loop of the MD handlers (netstack.py lines
392-404 and 608-620): for each of the `number` pairs, call `allocate_comm`
with NO try/except around it (an AllocError escapes the handler), await the
EGP's result signal, append the result to the local buffer, then `free` the
slot. `results` is the stream of EGP results in arrival order; when it runs
out the handler is still suspended at the await. -/
def md_acquire_loop :
    Nat → List MDResult → PhysicalQuantumMemory →
      HandlerOutcome (List NetAction × PhysicalQuantumMemory)
  | 0, _, m => HandlerOutcome.finished ([], m)
  | n + 1, results, m =>
    match m.allocate_comm with
    | (Except.error e, _) => HandlerOutcome.fault (PyFault.allocExhausted e)
    | (Except.ok phys, m2) =>
      match results with
      | [] => HandlerOutcome.suspended
      | _ :: rest =>
        match m2.free phys with
        | none => HandlerOutcome.fault (PyFault.keyError phys)
        | some m3 =>
          ho_then (md_acquire_loop n rest m3) fun p =>
            HandlerOutcome.finished (NetAction.awaitEgpResult :: p.1, p.2)

/-- `Netstack.handle_create_md_request` (netstack.py lines 355-432): put the
whole multi-pair request to the EGP up front, run the acquisition loop
buffering all results, then populate the result array for every pair and
send ONE "wrote to array" processor notification after the whole batch
(line 432, outside the per-pair write loop). -/
def handle_create_md_request (cfg : MDConfig) (number : Nat)
    (results : List MDResult) (m : PhysicalQuantumMemory) :
    HandlerOutcome (List NetAction × PhysicalQuantumMemory) :=
  ho_then (md_acquire_loop number results m) fun p =>
    HandlerOutcome.finished
      (NetAction.putEgpRequest
          :: (p.1
            ++ ((results.take number).enum.map fun pr =>
                md_result_writes cfg pr.1 pr.2).flatten
            ++ [NetAction.sendProcessorMsg wroteToArrayMsg]),
        p.2)

/-- `Netstack.handle_receive_md_request` (netstack.py lines 573-648): put a
`ReqReceive` to the EGP, run the acquisition loop, then populate the result
array pair by pair, sending one "wrote to array" processor notification per
pair slice (line 648, inside the per-pair write loop). The source acquires
the slot via `self._interface.qdevice.allocate_comm()`; `QDevice` is not
under src/ — Modelled from the spec: "a comm-qubit slot is still acquired
once per pair", modelled as the same pool's `allocate_comm` (the slot is
freed on `self.physical_memory` as in the source). -/
def handle_receive_md_request (cfg : MDConfig) (number : Nat)
    (results : List MDResult) (m : PhysicalQuantumMemory) :
    HandlerOutcome (List NetAction × PhysicalQuantumMemory) :=
  ho_then (md_acquire_loop number results m) fun p =>
    HandlerOutcome.finished
      (NetAction.putEgpReceive
          :: (p.1
            ++ ((results.take number).enum.map fun pr =>
                md_result_writes cfg pr.1 pr.2
                  ++ [NetAction.sendProcessorMsg wroteToArrayMsg]).flatten),
        p.2)

/-- Predicate selecting result-array writes. -/
def is_array_write : NetAction → Bool
  | NetAction.setArrayValue _ _ _ => true
  | _ => false

/-- Predicate selecting waits on an EGP result signal. -/
def is_egp_await : NetAction → Bool
  | NetAction.awaitEgpResult => true
  | _ => false

/-- Predicate selecting "wrote to array" processor notifications. -/
def is_wrote_notify : NetAction → Bool
  | NetAction.sendProcessorMsg s => s == wroteToArrayMsg
  | _ => false

/-- Predicate selecting quantum-program executions. -/
def is_exec_program : NetAction → Bool
  | NetAction.executeProgram _ => true
  | _ => false

/-- The actions of a trace that happen strictly before the `n`-th
`awaitEgpResult` completes. -/
def before_nth_egp_await : List NetAction → Nat → List NetAction
  | [], _ => []
  | a :: tr, n =>
    if is_egp_await a then
      if n ≤ 1 then [] else a :: before_nth_egp_await tr (n - 1)
    else a :: before_nth_egp_await tr n

/-- Message exchanged at the start of the breakpoint rendezvous. -/
def bpStartMsg : String := "breakpoint start"

/-- Message exchanged at the end of the breakpoint rendezvous. -/
def bpEndMsg : String := "breakpoint end"

/-- Notification to the local processor that the rendezvous is set up. -/
def bpReadyMsg : String := "breakpoint ready"

/-- Final notification to the local processor. -/
def bpFinishedMsg : String := "breakpoint finished"

/-- Actions of a breakpoint-rendezvous handler, in program order: messages
sent to / received from the peer network stack and the local processor. -/
inductive BpAction where
  | sendPeer (content : String)
  | recvPeer (content : String)
  | sendProc (content : String)
  | recvProc (content : String)
  deriving DecidableEq

/-- Outcome of running a breakpoint handler against the messages that arrive
from the peer and from the local processor: a completed run with its action
trace, a handler still blocked waiting for a message that never arrives, or
a failed `assert` on unexpected message content (a fatal protocol
violation). -/
inductive BpOutcome where
  | ok (trace : List BpAction)
  | blocked
  | violation
  deriving DecidableEq

/-- `Netstack.handle_breakpoint_create_request` (netstack.py lines 687-714),
run against `peerMsgs` (the messages that arrive from the peer, in order)
and `procMsgs` (the messages that arrive from the local processor): send
"breakpoint start" to the peer; wait for the peer's message and assert it is
"breakpoint start"; notify the processor "breakpoint ready"; wait for the
processor's message and assert it is "breakpoint end"; send "breakpoint end"
to the peer; wait for the peer's message and assert it is "breakpoint end";
finally notify the processor "breakpoint finished". -/
def handle_breakpoint_create_request (peerMsgs procMsgs : List String) :
    BpOutcome :=
  let tr0 := [BpAction.sendPeer bpStartMsg]
  match peerMsgs with
  | [] => BpOutcome.blocked
  | p1 :: peerRest =>
    let tr1 := tr0 ++ [BpAction.recvPeer p1]
    if p1 = bpStartMsg then
      let tr2 := tr1 ++ [BpAction.sendProc bpReadyMsg]
      match procMsgs with
      | [] => BpOutcome.blocked
      | q1 :: _ =>
        let tr3 := tr2 ++ [BpAction.recvProc q1]
        if q1 = bpEndMsg then
          let tr4 := tr3 ++ [BpAction.sendPeer bpEndMsg]
          match peerRest with
          | [] => BpOutcome.blocked
          | p2 :: _ =>
            let tr5 := tr4 ++ [BpAction.recvPeer p2]
            if p2 = bpEndMsg then
              BpOutcome.ok (tr5 ++ [BpAction.sendProc bpFinishedMsg])
            else BpOutcome.violation
        else BpOutcome.violation
    else BpOutcome.violation

/-- `Netstack.handle_breakpoint_receive_request` (netstack.py lines
716-741): wait for the peer's message and assert it is "breakpoint start";
send "breakpoint start" to the peer; notify the processor "breakpoint
ready"; wait for the processor's message and assert it is "breakpoint end";
wait for the peer's message and assert it is "breakpoint end"; send
"breakpoint end" to the peer; finally notify the processor "breakpoint
finished". -/
def handle_breakpoint_receive_request (peerMsgs procMsgs : List String) :
    BpOutcome :=
  match peerMsgs with
  | [] => BpOutcome.blocked
  | p1 :: peerRest =>
    let tr1 := [BpAction.recvPeer p1]
    if p1 = bpStartMsg then
      let tr2 := tr1 ++ [BpAction.sendPeer bpStartMsg, BpAction.sendProc bpReadyMsg]
      match procMsgs with
      | [] => BpOutcome.blocked
      | q1 :: _ =>
        let tr3 := tr2 ++ [BpAction.recvProc q1]
        if q1 = bpEndMsg then
          match peerRest with
          | [] => BpOutcome.blocked
          | p2 :: _ =>
            let tr4 := tr3 ++ [BpAction.recvPeer p2]
            if p2 = bpEndMsg then
              BpOutcome.ok (tr4 ++ [BpAction.sendPeer bpEndMsg,
                BpAction.sendProc bpFinishedMsg])
            else BpOutcome.violation
        else BpOutcome.violation
    else BpOutcome.violation

/-- Predicate selecting the "breakpoint finished" notification to the local
processor. -/
def is_bp_finished : BpAction → Bool
  | BpAction.sendProc s => s == bpFinishedMsg
  | _ => false

theorem findFrom_eq_some (p : Nat → Bool) :
    ∀ (fuel lo i : Nat), findFrom p lo fuel = some i ↔
      lo ≤ i ∧ i < lo + fuel ∧ p i = true ∧ ∀ j, lo ≤ j → j < i → p j = false := by
  intro fuel
  induction fuel with
  | zero =>
    intro lo i
    simp only [findFrom]
    constructor
    · intro h; cases h
    · rintro ⟨h1, h2, -⟩; omega
  | succ n ih =>
    intro lo i
    simp only [findFrom]
    by_cases hp : p lo
    · rw [if_pos hp]
      constructor
      · rintro h
        cases h
        exact ⟨Nat.le_refl _, by omega, hp, fun j hj1 hj2 => by omega⟩
      · rintro ⟨h1, _, _, h4⟩
        have : i = lo := by
          by_contra hne
          have hlt : lo < i := Nat.lt_of_le_of_ne h1 (Ne.symm hne)
          have := h4 lo (Nat.le_refl _) hlt
          rw [hp] at this
          cases this
        rw [this]
    · rw [if_neg hp]
      rw [ih (lo + 1) i]
      constructor
      · rintro ⟨h1, h2, h3, h4⟩
        refine ⟨by omega, by omega, h3, fun j hj1 hj2 => ?_⟩
        rcases Nat.eq_or_lt_of_le hj1 with heq | hlt
        · rw [← heq]
          exact Bool.eq_false_iff.mpr hp
        · exact h4 j hlt hj2
      · rintro ⟨h1, h2, h3, h4⟩
        have hne : i ≠ lo := by
          intro heq
          rw [heq] at h3
          exact hp h3
        refine ⟨by omega, by omega, h3, fun j hj1 hj2 => h4 j (by omega) hj2⟩

theorem findFrom_eq_none (p : Nat → Bool) :
    ∀ (fuel lo : Nat), findFrom p lo fuel = none ↔
      ∀ j, lo ≤ j → j < lo + fuel → p j = false := by
  intro fuel
  induction fuel with
  | zero =>
    intro lo
    simp only [findFrom]
    constructor
    · intro _ j h1 h2; omega
    · intro _; trivial
  | succ n ih =>
    intro lo
    simp only [findFrom]
    by_cases hp : p lo
    · rw [if_pos hp]
      constructor
      · intro h; cases h
      · intro h
        have := h lo (Nat.le_refl _) (by omega)
        rw [hp] at this
        cases this
    · rw [if_neg hp]
      rw [ih (lo + 1)]
      constructor
      · intro h j h1 h2
        rcases Nat.eq_or_lt_of_le h1 with heq | hlt
        · rw [← heq]; exact Bool.eq_false_iff.mpr hp
        · exact h j hlt (by omega)
      · intro h j h1 h2
        exact h j (by omega) (by omega)

theorem allocate_ok_iff (m : PhysicalQuantumMemory) (i : Nat) :
    m.allocate.1 = Except.ok i ↔
      findFrom (fun k => decide (k ∉ m.allocated_ids)) 0 m.qubit_count = some i := by
  unfold PhysicalQuantumMemory.allocate
  cases hf : findFrom (fun k => decide (k ∉ m.allocated_ids)) 0 m.qubit_count with
  | none => simp
  | some k => simp

theorem allocate_comm_ok_iff (m : PhysicalQuantumMemory) (i : Nat) :
    m.allocate_comm.1 = Except.ok i ↔
      findFrom (fun k => decide (k ∉ m.allocated_ids ∧ k ∈ m.comm_qubit_ids))
        0 m.qubit_count = some i := by
  unfold PhysicalQuantumMemory.allocate_comm
  cases hf : findFrom (fun k => decide (k ∉ m.allocated_ids ∧ k ∈ m.comm_qubit_ids))
      0 m.qubit_count with
  | none => simp
  | some k => simp

theorem allocate_mem_ok_iff (m : PhysicalQuantumMemory) (i : Nat) :
    m.allocate_mem.1 = Except.ok i ↔
      findFrom (fun k => decide (k ∉ m.allocated_ids ∧ k ∉ m.comm_qubit_ids))
        0 m.qubit_count = some i := by
  unfold PhysicalQuantumMemory.allocate_mem
  cases hf : findFrom (fun k => decide (k ∉ m.allocated_ids ∧ k ∉ m.comm_qubit_ids))
      0 m.qubit_count with
  | none => simp
  | some k => simp

theorem allocate_err_of_none (m : PhysicalQuantumMemory)
    (h : findFrom (fun k => decide (k ∉ m.allocated_ids)) 0 m.qubit_count = none) :
    m.allocate = (Except.error (AllocError.exhausted msgNoQubits), m) := by
  unfold PhysicalQuantumMemory.allocate
  rw [h]

theorem allocate_comm_err_of_none (m : PhysicalQuantumMemory)
    (h : findFrom (fun k => decide (k ∉ m.allocated_ids ∧ k ∈ m.comm_qubit_ids))
        0 m.qubit_count = none) :
    m.allocate_comm = (Except.error (AllocError.exhausted msgNoCommQubits), m) := by
  unfold PhysicalQuantumMemory.allocate_comm
  rw [h]

theorem allocate_mem_err_of_none (m : PhysicalQuantumMemory)
    (h : findFrom (fun k => decide (k ∉ m.allocated_ids ∧ k ∉ m.comm_qubit_ids))
        0 m.qubit_count = none) :
    m.allocate_mem = (Except.error (AllocError.exhausted msgNoMemQubits), m) := by
  unfold PhysicalQuantumMemory.allocate_mem
  rw [h]

/-- C2: for every allocator state (in particular every state reached along a
sequence of allocate/allocate_comm/allocate_mem/free calls), a successful
`allocate` returns a slot id that is not currently allocated and is the
lowest-numbered free id; a successful `allocate_comm` returns the
lowest-numbered free id of the communication subset; a successful
`allocate_mem` returns the lowest-numbered free id outside the communication
subset. -/
theorem claim_c2_allocator_first_fit (m : PhysicalQuantumMemory) (i : Nat) :
    (m.allocate.1 = Except.ok i →
      i ∉ m.allocated_ids ∧ i < m.qubit_count ∧
        ∀ j, j < i → j ∈ m.allocated_ids)
    ∧ (m.allocate_comm.1 = Except.ok i →
      i ∉ m.allocated_ids ∧ i ∈ m.comm_qubit_ids ∧ i < m.qubit_count ∧
        ∀ j, j < i → j ∈ m.comm_qubit_ids → j ∈ m.allocated_ids)
    ∧ (m.allocate_mem.1 = Except.ok i →
      i ∉ m.allocated_ids ∧ i ∉ m.comm_qubit_ids ∧ i < m.qubit_count ∧
        ∀ j, j < i → j ∉ m.comm_qubit_ids → j ∈ m.allocated_ids) := by
  refine ⟨?_, ?_, ?_⟩
  · intro h
    rw [allocate_ok_iff] at h
    obtain ⟨-, hlt, hp, hmin⟩ := (findFrom_eq_some _ _ _ _).mp h
    refine ⟨of_decide_eq_true hp, by omega, fun j hj => ?_⟩
    have := of_decide_eq_false (hmin j (Nat.zero_le j) hj)
    exact not_not.mp this
  · intro h
    rw [allocate_comm_ok_iff] at h
    obtain ⟨-, hlt, hp, hmin⟩ := (findFrom_eq_some _ _ _ _).mp h
    obtain ⟨h1, h2⟩ := of_decide_eq_true hp
    refine ⟨h1, h2, by omega, fun j hj hcomm => ?_⟩
    have hnot := of_decide_eq_false (hmin j (Nat.zero_le j) hj)
    by_contra hfree
    exact hnot ⟨hfree, hcomm⟩
  · intro h
    rw [allocate_mem_ok_iff] at h
    obtain ⟨-, hlt, hp, hmin⟩ := (findFrom_eq_some _ _ _ _).mp h
    obtain ⟨h1, h2⟩ := of_decide_eq_true hp
    refine ⟨h1, h2, by omega, fun j hj hcomm => ?_⟩
    have hnot := of_decide_eq_false (hmin j (Nat.zero_le j) hj)
    by_contra hfree
    exact hnot ⟨hfree, hcomm⟩

theorem claim_c2_witness :
    ((0 ∉ (PhysicalQuantumMemory.init 2).allocated_ids ∧
      0 < (PhysicalQuantumMemory.init 2).qubit_count ∧
      ∀ j, j < 0 → j ∈ (PhysicalQuantumMemory.init 2).allocated_ids)
    ∧ (0 ∉ (NVPhysicalQuantumMemory.init 2).allocated_ids ∧
       0 ∈ (NVPhysicalQuantumMemory.init 2).comm_qubit_ids ∧
       0 < (NVPhysicalQuantumMemory.init 2).qubit_count ∧
       ∀ j, j < 0 → j ∈ (NVPhysicalQuantumMemory.init 2).comm_qubit_ids →
         j ∈ (NVPhysicalQuantumMemory.init 2).allocated_ids)
    ∧ (1 ∉ (NVPhysicalQuantumMemory.init 2).allocated_ids ∧
       1 ∉ (NVPhysicalQuantumMemory.init 2).comm_qubit_ids ∧
       1 < (NVPhysicalQuantumMemory.init 2).qubit_count ∧
       ∀ j, j < 1 → j ∉ (NVPhysicalQuantumMemory.init 2).comm_qubit_ids →
         j ∈ (NVPhysicalQuantumMemory.init 2).allocated_ids)) :=
  ⟨(claim_c2_allocator_first_fit (PhysicalQuantumMemory.init 2) 0).1 rfl,
   (claim_c2_allocator_first_fit (NVPhysicalQuantumMemory.init 2) 0).2.1 rfl,
   (claim_c2_allocator_first_fit (NVPhysicalQuantumMemory.init 2) 1).2.2 rfl⟩

/-- C7: when no eligible free slot exists each allocator raises AllocError
and leaves the allocated set unchanged; after a successful `free id` (with
every lower slot still allocated) a subsequent `allocate` returns that same
id again; and `free` on a non-allocated id is a fault (Python `set.remove`
raises `KeyError`, modelled by `none`), not a normal return. -/
theorem claim_c7_allocator_faults (m : PhysicalQuantumMemory) (id : Nat)
    (m2 : PhysicalQuantumMemory) :
    ((∀ j, j < m.qubit_count → j ∈ m.allocated_ids) →
        m.allocate = (Except.error (AllocError.exhausted msgNoQubits), m))
    ∧ ((∀ j, j < m.qubit_count → j ∈ m.comm_qubit_ids → j ∈ m.allocated_ids) →
        m.allocate_comm = (Except.error (AllocError.exhausted msgNoCommQubits), m))
    ∧ ((∀ j, j < m.qubit_count → j ∉ m.comm_qubit_ids → j ∈ m.allocated_ids) →
        m.allocate_mem = (Except.error (AllocError.exhausted msgNoMemQubits), m))
    ∧ (m.free id = some m2 → id < m.qubit_count →
        (∀ j, j < id → j ∈ m.allocated_ids) → m2.allocate.1 = Except.ok id)
    ∧ (id ∉ m.allocated_ids → m.free id = none) := by
  refine ⟨?_, ?_, ?_, ?_, ?_⟩
  · intro h
    apply allocate_err_of_none
    rw [findFrom_eq_none]
    intro j _ hj
    exact decide_eq_false (not_not_intro (h j (by omega)))
  · intro h
    apply allocate_comm_err_of_none
    rw [findFrom_eq_none]
    intro j _ hj
    apply decide_eq_false
    rintro ⟨hfree, hcomm⟩
    exact hfree (h j (by omega) hcomm)
  · intro h
    apply allocate_mem_err_of_none
    rw [findFrom_eq_none]
    intro j _ hj
    apply decide_eq_false
    rintro ⟨hfree, hcomm⟩
    exact hfree (h j (by omega) hcomm)
  · intro hfree hlt hbelow
    unfold PhysicalQuantumMemory.free at hfree
    by_cases hin : id ∈ m.allocated_ids
    · rw [if_pos hin] at hfree
      obtain rfl : { m with allocated_ids := m.allocated_ids.erase id } = m2 :=
        Option.some.inj hfree
      rw [allocate_ok_iff]
      rw [findFrom_eq_some]
      refine ⟨Nat.zero_le _, by simpa using hlt, ?_, ?_⟩
      · simp [Finset.not_mem_erase]
      · intro j _ hj
        apply decide_eq_false
        apply not_not_intro
        simp only [Finset.mem_erase]
        exact ⟨by omega, hbelow j hj⟩
    · rw [if_neg hin] at hfree
      cases hfree
  · intro h
    unfold PhysicalQuantumMemory.free
    rw [if_neg h]

theorem claim_c7_witness :
    (((PhysicalQuantumMemory.init 1).allocate.2).allocate
        = (Except.error (AllocError.exhausted msgNoQubits),
           (PhysicalQuantumMemory.init 1).allocate.2)
      ∧ ∀ mz, ((PhysicalQuantumMemory.init 1).allocate.2).free 0 = some mz →
          mz.allocate.1 = Except.ok 0)
    ∧ (PhysicalQuantumMemory.init 2).free 0 = none := by
  refine ⟨⟨?_, ?_⟩, ?_⟩
  · exact (claim_c7_allocator_faults ((PhysicalQuantumMemory.init 1).allocate.2) 0
      (PhysicalQuantumMemory.init 1)).1
      (fun j hj => by
        have : j = 0 := by
          have h1 : ((PhysicalQuantumMemory.init 1).allocate.2).qubit_count = 1 := rfl
          omega
        subst this
        decide)
  · intro mz hz
    exact (claim_c7_allocator_faults ((PhysicalQuantumMemory.init 1).allocate.2) 0
        mz).2.2.2.1 hz (by decide) (fun j hj => absurd hj (Nat.not_lt_zero j))
  · exact (claim_c7_allocator_faults (PhysicalQuantumMemory.init 2) 0
      (PhysicalQuantumMemory.init 2)).2.2.2.2 (by decide)

/-- C10: the base `PhysicalQuantumMemory` constructor makes the communication
subset equal to the full slot set `range qubit_count`, and on any allocator
state whose communication subset is the full slot set `allocate_mem` raises
AllocError (leaving the state unchanged) no matter which slots are free. -/
theorem claim_c10_base_pool_no_mem_qubits (C : Nat) (m : PhysicalQuantumMemory) :
    (PhysicalQuantumMemory.init C).comm_qubit_ids = Finset.range C
    ∧ (PhysicalQuantumMemory.init C).qubit_count = C
    ∧ (m.comm_qubit_ids = Finset.range m.qubit_count →
        m.allocate_mem = (Except.error (AllocError.exhausted msgNoMemQubits), m)) := by
  refine ⟨rfl, rfl, fun hcomm => ?_⟩
  apply allocate_mem_err_of_none
  rw [findFrom_eq_none]
  intro j _ hj
  apply decide_eq_false
  rintro ⟨-, hnotcomm⟩
  apply hnotcomm
  rw [hcomm]
  exact Finset.mem_range.mpr (by omega)

theorem drain_inputs_spec (pending : List PortInput) :
    ∀ buf, drain_inputs pending buf
      = (buf ++ (pending.map PortInput.items).flatten, pending.length) := by
  induction pending with
  | nil => intro buf; simp [drain_inputs]
  | cons inp rest ih =>
    intro buf
    simp only [drain_inputs, ih, List.map_cons, List.flatten, List.length_cons,
      List.append_assoc]

theorem replicate_await_filter (n : Nat) :
    (List.replicate n ListenerAction.awaitPortInput).filter is_send_signal = [] := by
  induction n with
  | zero => rfl
  | succ k ih => simp [List.replicate_succ, List.filter_cons, is_send_signal, ih]

/-- C5: for every wake episode of the channel listener in which at least one
input is pending on its port, the episode emits exactly one notification
signal, and afterwards the buffer holds the previous contents followed by
all pending messages in arrival order. -/
theorem claim_c5_listener_episode (signal_label : String)
    (pending : List PortInput) (buffer : List String)
    (hK : pending ≠ []) :
    ((listener_wake_episode signal_label pending buffer).1.filter is_send_signal
        = [ListenerAction.sendSignal signal_label])
    ∧ (listener_wake_episode signal_label pending buffer).2
        = buffer ++ (pending.map PortInput.items).flatten := by
  unfold listener_wake_episode
  rw [drain_inputs_spec]
  refine ⟨?_, rfl⟩
  simp [List.filter_cons, List.filter_append, is_send_signal,
    replicate_await_filter]

theorem claim_c5_witness :
    ((listener_wake_episode "sig" [⟨["a"]⟩, ⟨["b", "c"]⟩] ["z"]).1.filter
        is_send_signal = [ListenerAction.sendSignal "sig"])
    ∧ (listener_wake_episode "sig" [⟨["a"]⟩, ⟨["b", "c"]⟩] ["z"]).2
        = ["z"] ++ ([["a"], ["b", "c"]].map id).flatten :=
  claim_c5_listener_episode "sig" [⟨["a"]⟩, ⟨["b", "c"]⟩] ["z"] (by decide)

theorem receive_msgs_spec (n : Nat) :
    ∀ buffer : List String, n ≤ buffer.length →
      receive_msgs n buffer = some (buffer.take n, buffer.drop n) := by
  induction n with
  | zero => intro buffer _; simp [receive_msgs]
  | succ k ih =>
    intro buffer hlen
    match buffer with
    | [] => simp at hlen
    | msg :: rest =>
      simp only [receive_msgs, receive_msg]
      rw [ih rest (by simpa using hlen)]
      simp

/-- C8: `_receive_msg` returns the oldest buffered message without
suspending when the buffer is non-empty; when the buffer is empty it
suspends until the wake signal fires and then returns the oldest message;
and across a sequence of such calls the messages come back exactly in
buffer (arrival) order with none dropped. -/
theorem claim_c8_receive_msg_fifo (buffer arrivals : List String)
    (msg : String) (rest : List String) (n : Nat) :
    (buffer = msg :: rest → receive_msg buffer arrivals = some (msg, rest, false))
    ∧ (arrivals = msg :: rest → receive_msg [] arrivals = some (msg, rest, true))
    ∧ (n ≤ buffer.length →
        receive_msgs n buffer = some (buffer.take n, buffer.drop n)) := by
  refine ⟨?_, ?_, receive_msgs_spec n buffer⟩
  · intro h; rw [h]; rfl
  · intro h; rw [h]; rfl

theorem claim_c8_witness :
    (receive_msg ["a", "b"] [] = some ("a", ["b"], false))
    ∧ (receive_msg [] ["c", "d"] = some ("c", ["d"], true))
    ∧ (receive_msgs 2 ["a", "b", "e"]
        = some (["a", "b", "e"].take 2, ["a", "b", "e"].drop 2)) :=
  ⟨(claim_c8_receive_msg_fifo ["a", "b"] [] "a" ["b"] 2).1 rfl,
   (claim_c8_receive_msg_fifo ["a", "b"] ["c", "d"] "c" ["d"] 2).2.1 rfl,
   (claim_c8_receive_msg_fifo ["a", "b", "e"] [] "a" ["b"] 2).2.2 (by decide)⟩

theorem bp_create_ok_shape (peerMsgs procMsgs : List String) (tr : List BpAction)
    (h : handle_breakpoint_create_request peerMsgs procMsgs = BpOutcome.ok tr) :
    tr = [BpAction.sendPeer bpStartMsg, BpAction.recvPeer bpStartMsg,
          BpAction.sendProc bpReadyMsg, BpAction.recvProc bpEndMsg,
          BpAction.sendPeer bpEndMsg, BpAction.recvPeer bpEndMsg,
          BpAction.sendProc bpFinishedMsg] := by
  unfold handle_breakpoint_create_request at h
  repeat' split at h
  all_goals simp_all

theorem bp_receive_ok_shape (peerMsgs procMsgs : List String) (tr : List BpAction)
    (h : handle_breakpoint_receive_request peerMsgs procMsgs = BpOutcome.ok tr) :
    tr = [BpAction.recvPeer bpStartMsg, BpAction.sendPeer bpStartMsg,
          BpAction.sendProc bpReadyMsg, BpAction.recvProc bpEndMsg,
          BpAction.recvPeer bpEndMsg, BpAction.sendPeer bpEndMsg,
          BpAction.sendProc bpFinishedMsg] := by
  unfold handle_breakpoint_receive_request at h
  repeat' split at h
  all_goals simp_all

/-- C9: in every complete run of a breakpoint handler (creator or receiver),
the "breakpoint ready" notification to the local processor comes only after
the peer's "breakpoint start" has been both sent and received; "breakpoint
finished" is sent to the local processor exactly once, as the last action;
and a message that differs from the expected content at any of the three
wait points makes the handler end in a protocol violation. -/
theorem claim_c9_breakpoint_rendezvous
    (peerMsgs procMsgs peerMsgs2 procMsgs2 : List String)
    (tr tr2 : List BpAction)
    (hc : handle_breakpoint_create_request peerMsgs procMsgs = BpOutcome.ok tr)
    (hr : handle_breakpoint_receive_request peerMsgs2 procMsgs2 = BpOutcome.ok tr2) :
    ((∃ pre post, tr = pre ++ BpAction.sendProc bpReadyMsg :: post
        ∧ BpAction.sendPeer bpStartMsg ∈ pre ∧ BpAction.recvPeer bpStartMsg ∈ pre)
      ∧ (tr.filter is_bp_finished) = [BpAction.sendProc bpFinishedMsg]
      ∧ tr.getLast? = some (BpAction.sendProc bpFinishedMsg))
    ∧ ((∃ pre post, tr2 = pre ++ BpAction.sendProc bpReadyMsg :: post
        ∧ BpAction.sendPeer bpStartMsg ∈ pre ∧ BpAction.recvPeer bpStartMsg ∈ pre)
      ∧ (tr2.filter is_bp_finished) = [BpAction.sendProc bpFinishedMsg]
      ∧ tr2.getLast? = some (BpAction.sendProc bpFinishedMsg))
    ∧ (∀ p rest qs, p ≠ bpStartMsg →
        handle_breakpoint_create_request (p :: rest) qs = BpOutcome.violation
        ∧ handle_breakpoint_receive_request (p :: rest) qs = BpOutcome.violation)
    ∧ (∀ rest q qrest, q ≠ bpEndMsg →
        handle_breakpoint_create_request (bpStartMsg :: rest) (q :: qrest)
          = BpOutcome.violation
        ∧ handle_breakpoint_receive_request (bpStartMsg :: rest) (q :: qrest)
          = BpOutcome.violation)
    ∧ (∀ p2 rest2 qrest, p2 ≠ bpEndMsg →
        handle_breakpoint_create_request (bpStartMsg :: p2 :: rest2)
          (bpEndMsg :: qrest) = BpOutcome.violation
        ∧ handle_breakpoint_receive_request (bpStartMsg :: p2 :: rest2)
          (bpEndMsg :: qrest) = BpOutcome.violation) := by
  have hshape := bp_create_ok_shape peerMsgs procMsgs tr hc
  have hshape2 := bp_receive_ok_shape peerMsgs2 procMsgs2 tr2 hr
  subst hshape
  subst hshape2
  refine ⟨⟨?_, by decide, by decide⟩, ⟨?_, by decide, by decide⟩, ?_, ?_, ?_⟩
  · exact ⟨[BpAction.sendPeer bpStartMsg, BpAction.recvPeer bpStartMsg],
      [BpAction.recvProc bpEndMsg, BpAction.sendPeer bpEndMsg,
       BpAction.recvPeer bpEndMsg, BpAction.sendProc bpFinishedMsg],
      rfl, by decide, by decide⟩
  · exact ⟨[BpAction.recvPeer bpStartMsg, BpAction.sendPeer bpStartMsg],
      [BpAction.recvProc bpEndMsg, BpAction.recvPeer bpEndMsg,
       BpAction.sendPeer bpEndMsg, BpAction.sendProc bpFinishedMsg],
      rfl, by decide, by decide⟩
  · intro p rest qs hp
    constructor
    · simp [handle_breakpoint_create_request, hp]
    · simp [handle_breakpoint_receive_request, hp]
  · intro rest q qrest hq
    constructor
    · simp [handle_breakpoint_create_request, hq]
    · simp [handle_breakpoint_receive_request, hq]
  · intro p2 rest2 qrest hp2
    constructor
    · simp [handle_breakpoint_create_request, hp2]
    · simp [handle_breakpoint_receive_request, hp2]

theorem claim_c9_witness :
    ((∃ pre post,
        [BpAction.sendPeer bpStartMsg, BpAction.recvPeer bpStartMsg,
         BpAction.sendProc bpReadyMsg, BpAction.recvProc bpEndMsg,
         BpAction.sendPeer bpEndMsg, BpAction.recvPeer bpEndMsg,
         BpAction.sendProc bpFinishedMsg]
          = pre ++ BpAction.sendProc bpReadyMsg :: post
        ∧ BpAction.sendPeer bpStartMsg ∈ pre ∧ BpAction.recvPeer bpStartMsg ∈ pre)
      ∧ ([BpAction.sendPeer bpStartMsg, BpAction.recvPeer bpStartMsg,
          BpAction.sendProc bpReadyMsg, BpAction.recvProc bpEndMsg,
          BpAction.sendPeer bpEndMsg, BpAction.recvPeer bpEndMsg,
          BpAction.sendProc bpFinishedMsg].filter is_bp_finished)
          = [BpAction.sendProc bpFinishedMsg]
      ∧ ([BpAction.sendPeer bpStartMsg, BpAction.recvPeer bpStartMsg,
          BpAction.sendProc bpReadyMsg, BpAction.recvProc bpEndMsg,
          BpAction.sendPeer bpEndMsg, BpAction.recvPeer bpEndMsg,
          BpAction.sendProc bpFinishedMsg].getLast?
          = some (BpAction.sendProc bpFinishedMsg))) := by
  have h := claim_c9_breakpoint_rendezvous
    [bpStartMsg, bpEndMsg] [bpEndMsg] [bpStartMsg, bpEndMsg] [bpEndMsg]
    [BpAction.sendPeer bpStartMsg, BpAction.recvPeer bpStartMsg,
     BpAction.sendProc bpReadyMsg, BpAction.recvProc bpEndMsg,
     BpAction.sendPeer bpEndMsg, BpAction.recvPeer bpEndMsg,
     BpAction.sendProc bpFinishedMsg]
    [BpAction.recvPeer bpStartMsg, BpAction.sendPeer bpStartMsg,
     BpAction.sendProc bpReadyMsg, BpAction.recvProc bpEndMsg,
     BpAction.recvPeer bpEndMsg, BpAction.sendPeer bpEndMsg,
     BpAction.sendProc bpFinishedMsg]
    rfl rfl
  exact h.1

theorem claim_c10_witness :
    (PhysicalQuantumMemory.init 3).allocate_mem
      = (Except.error (AllocError.exhausted msgNoMemQubits),
         PhysicalQuantumMemory.init 3) :=
  (claim_c10_base_pool_no_mem_qubits 3 (PhysicalQuantumMemory.init 3)).2.2 rfl

theorem allocate_comm_of_full (m : PhysicalQuantumMemory)
    (h : ∀ j, j < m.qubit_count → j ∈ m.comm_qubit_ids → j ∈ m.allocated_ids) :
    m.allocate_comm = (Except.error (AllocError.exhausted msgNoCommQubits), m) := by
  apply allocate_comm_err_of_none
  rw [findFrom_eq_none]
  intro j _ hj
  apply decide_eq_false
  rintro ⟨hfree, hcomm⟩
  exact hfree (h j (by omega) hcomm)

theorem retry_allocate_comm_ne_fault :
    ∀ (env : List PhysicalQuantumMemory) (m : PhysicalQuantumMemory) (e : PyFault),
      retry_allocate_comm m env ≠ HandlerOutcome.fault e := by
  intro env
  induction env with
  | nil =>
    intro m e h
    unfold retry_allocate_comm at h
    rcases h0 : m.allocate_comm with ⟨res, m2⟩
    rw [h0] at h
    cases res <;> simp at h
  | cons m2 rest ih =>
    intro m e h
    unfold retry_allocate_comm at h
    rcases h0 : m.allocate_comm with ⟨res, mz⟩
    rw [h0] at h
    cases res with
    | ok i => simp at h
    | error e2 =>
      simp only [] at h
      cases hrec : retry_allocate_comm m2 rest with
      | finished r => rw [hrec] at h; simp at h
      | suspended => rw [hrec] at h; simp at h
      | fault e3 => exact ih m2 e3 hrec

theorem ho_then_ne_fault {α β : Type} (x : HandlerOutcome α)
    (f : α → HandlerOutcome β) (e : PyFault)
    (hx : ∀ e2, x ≠ HandlerOutcome.fault e2)
    (hf : ∀ a e2, f a ≠ HandlerOutcome.fault e2) :
    ho_then x f ≠ HandlerOutcome.fault e := by
  intro h
  cases x with
  | finished a => exact hf a e h
  | suspended => simp [ho_then] at h
  | fault e2 => exact hx e2 rfl

theorem ho_then_eq_finished {α β : Type} (x : HandlerOutcome α)
    (f : α → HandlerOutcome β) (b : β) :
    ho_then x f = HandlerOutcome.finished b ↔
      ∃ a, x = HandlerOutcome.finished a ∧ f a = HandlerOutcome.finished b := by
  cases x <;> simp [ho_then]

theorem ck_create_loop_ne_fault (cfg : CKConfig) :
    ∀ (pairs : List CKPairInput) (pair_index : Nat)
      (envs : List (List PhysicalQuantumMemory)) (m : PhysicalQuantumMemory)
      (e : PyFault),
      ck_create_loop cfg pair_index pairs envs m ≠ HandlerOutcome.fault e := by
  intro pairs
  induction pairs with
  | nil => intro pair_index envs m e h; simp [ck_create_loop] at h
  | cons pd rest ih =>
    intro pair_index envs m e
    unfold ck_create_loop
    apply ho_then_ne_fault _ _ _ (retry_allocate_comm_ne_fault (envs.headD []) m)
    intro r e2
    apply ho_then_ne_fault _ _ _ (ih (pair_index + 1) envs.tail r.2.2)
    intro p e3 h
    simp at h

theorem ck_receive_loop_ne_fault (cfg : CKConfig) :
    ∀ (pairs : List CKPairInput) (pair_index : Nat)
      (envs : List (List PhysicalQuantumMemory)) (m : PhysicalQuantumMemory)
      (e : PyFault),
      ck_receive_loop cfg pair_index pairs envs m ≠ HandlerOutcome.fault e := by
  intro pairs
  induction pairs with
  | nil => intro pair_index envs m e h; simp [ck_receive_loop] at h
  | cons pd rest ih =>
    intro pair_index envs m e
    unfold ck_receive_loop
    apply ho_then_ne_fault _ _ _ (retry_allocate_comm_ne_fault (envs.headD []) m)
    intro r e2
    apply ho_then_ne_fault _ _ _ (ih (pair_index + 1) envs.tail r.2.2)
    intro p e3 h
    simp at h

theorem md_acquire_loop_finished (n : Nat) :
    ∀ (results : List MDResult) (m : PhysicalQuantumMemory)
      (tr : List NetAction) (mf : PhysicalQuantumMemory),
      md_acquire_loop n results m = HandlerOutcome.finished (tr, mf) →
      tr = List.replicate n NetAction.awaitEgpResult ∧ n ≤ results.length := by
  induction n with
  | zero =>
    intro results m tr mf h
    simp only [md_acquire_loop, HandlerOutcome.finished.injEq, Prod.mk.injEq] at h
    exact ⟨h.1.symm, Nat.zero_le _⟩
  | succ k ih =>
    intro results m tr mf h
    unfold md_acquire_loop at h
    split at h
    · simp at h
    · split at h
      · simp at h
      · split at h
        · simp at h
        · rw [ho_then_eq_finished] at h
          obtain ⟨p, hp, hfp⟩ := h
          simp only [HandlerOutcome.finished.injEq, Prod.mk.injEq] at hfp
          obtain ⟨h1, h2⟩ := hfp
          obtain ⟨h3, h4⟩ := ih _ _ p.1 p.2 (by rw [hp])
          refine ⟨?_, ?_⟩
          · rw [← h1, h3, List.replicate_succ]
          · simpa using Nat.succ_le_succ h4

theorem md_acquire_loop_exhausted (n : Nat) (results : List MDResult)
    (m : PhysicalQuantumMemory)
    (hfull : ∀ j, j < m.qubit_count → j ∈ m.comm_qubit_ids → j ∈ m.allocated_ids)
    (hn : 1 ≤ n) :
    md_acquire_loop n results m
      = HandlerOutcome.fault
          (PyFault.allocExhausted (AllocError.exhausted msgNoCommQubits)) := by
  obtain ⟨k, rfl⟩ : ∃ k, n = k + 1 := ⟨n - 1, by omega⟩
  unfold md_acquire_loop
  rw [allocate_comm_of_full m hfull]

theorem md_writes_filter_notify (cfg : MDConfig) (pair_index : Nat) (r : MDResult) :
    (md_result_writes cfg pair_index r).filter is_wrote_notify = [] := by
  rw [List.filter_eq_nil_iff]
  intro a ha
  simp only [md_result_writes, List.mem_map] at ha
  obtain ⟨i, -, rfl⟩ := ha
  simp [is_wrote_notify]

theorem md_blocks_filter_notify_create (cfg : MDConfig) :
    ∀ (l : List (Nat × MDResult)),
      ((l.map fun pr => md_result_writes cfg pr.1 pr.2).flatten).filter
        is_wrote_notify = [] := by
  intro l
  induction l with
  | nil => rfl
  | cons pr rest ih =>
    simp only [List.map_cons, List.flatten_cons, List.filter_append,
      md_writes_filter_notify, List.nil_append, ih]

theorem md_blocks_filter_notify_receive (cfg : MDConfig) :
    ∀ (l : List (Nat × MDResult)),
      (((l.map fun pr => md_result_writes cfg pr.1 pr.2
          ++ [NetAction.sendProcessorMsg wroteToArrayMsg]).flatten).filter
        is_wrote_notify).length = l.length := by
  intro l
  induction l with
  | nil => rfl
  | cons pr rest ih =>
    have h1 : ((md_result_writes cfg pr.1 pr.2
        ++ [NetAction.sendProcessorMsg wroteToArrayMsg])).filter is_wrote_notify
        = [NetAction.sendProcessorMsg wroteToArrayMsg] := by
      rw [List.filter_append, md_writes_filter_notify]
      simp [List.filter_cons, is_wrote_notify]
    simp only [List.map_cons, List.flatten_cons, List.filter_append, h1]
    rw [List.length_append, ih]
    show 1 + rest.length = rest.length + 1
    omega

theorem before_nth_cons_not_await (a : NetAction) (tr : List NetAction) (n : Nat)
    (h : is_egp_await a = false) :
    before_nth_egp_await (a :: tr) n = a :: before_nth_egp_await tr n := by
  simp [before_nth_egp_await, h]

theorem before_nth_replicate_await (rest : List NetAction) :
    ∀ n : Nat, 1 ≤ n →
      before_nth_egp_await
          (List.replicate n NetAction.awaitEgpResult ++ rest) n
        = List.replicate (n - 1) NetAction.awaitEgpResult := by
  intro n
  induction n with
  | zero => intro h; omega
  | succ k ih =>
    intro _
    rw [List.replicate_succ, List.cons_append]
    unfold before_nth_egp_await
    cases k with
    | zero =>
      simp [is_egp_await]
    | succ j =>
      have hcond : is_egp_await NetAction.awaitEgpResult = true := rfl
      rw [if_pos hcond]
      have hc : ¬ (j + 1 + 1 ≤ 1) := by omega
      rw [if_neg hc]
      have hih := ih (by omega)
      simp only [Nat.add_sub_cancel] at hih ⊢
      rw [hih, List.replicate_succ]

theorem ck_writes_filter_exec (cfg : CKConfig) (pair_index : Nat)
    (dur_us bell_val : Int) :
    (ck_result_writes cfg pair_index dur_us bell_val).filter is_exec_program = [] := by
  rw [List.filter_eq_nil_iff]
  intro a ha
  simp only [ck_result_writes, List.mem_map] at ha
  obtain ⟨i, -, rfl⟩ := ha
  simp [is_exec_program]

theorem ck_writes_filter_write (cfg : CKConfig) (pair_index : Nat)
    (dur_us bell_val : Int) :
    (ck_result_writes cfg pair_index dur_us bell_val).filter is_array_write
      = ck_result_writes cfg pair_index dur_us bell_val := by
  rw [List.filter_eq_self]
  intro a ha
  simp only [ck_result_writes, List.mem_map] at ha
  obtain ⟨i, -, rfl⟩ := ha
  simp [is_array_write]

theorem corr_filter_exec (b : BellIndex) :
    (ck_correction_actions b).filter is_exec_program = ck_correction_actions b := by
  cases b <;> rfl

theorem corr_filter_write (b : BellIndex) :
    (ck_correction_actions b).filter is_array_write = [] := by
  cases b <;> rfl

/-- C1: on the create-and-keep path, for every reported Bell index the
initiator's handler executes exactly the correction selected by that index
(no program for B00, an X PI-rotation for B01, a Z PI-rotation for B10,
both composed in one program for B11), and does so before delivering the
qubit (before mapping the virtual id to the physical slot); the
receiver-side CK handler executes no correction program for any reported
Bell index. -/
theorem claim_c1_bell_corrections (cfg : CKConfig) (pair_index : Nat)
    (pd : CKPairInput) (waits phys : Nat) :
    ((ck_create_pair_trace cfg pair_index pd waits phys).filter is_exec_program
        = ck_correction_actions pd.bell)
    ∧ (∃ pre post, ck_create_pair_trace cfg pair_index pd waits phys
        = pre ++ ck_correction_actions pd.bell
            ++ NetAction.mapVirtId (cfg.qubit_array pair_index) phys :: post
        ∧ pre.filter is_exec_program = [] ∧ post.filter is_exec_program = [])
    ∧ (ck_correction_actions BellIndex.B00 = []
      ∧ ck_correction_actions BellIndex.B01
          = [NetAction.executeProgram [⟨NSInstr.ROT_X, [0], AngleConst.PI⟩]]
      ∧ ck_correction_actions BellIndex.B10
          = [NetAction.executeProgram [⟨NSInstr.ROT_Z, [0], AngleConst.PI⟩]]
      ∧ ck_correction_actions BellIndex.B11
          = [NetAction.executeProgram [⟨NSInstr.ROT_X, [0], AngleConst.PI⟩,
              ⟨NSInstr.ROT_Z, [0], AngleConst.PI⟩]])
    ∧ ((ck_receive_pair_trace cfg pair_index pd waits phys).filter is_exec_program
        = []) := by
  refine ⟨?_, ?_, ⟨rfl, rfl, rfl, rfl⟩, ?_⟩
  · unfold ck_create_pair_trace
    simp [List.filter_append, List.filter_cons, is_exec_program,
      corr_filter_exec, ck_writes_filter_exec]
  · refine ⟨List.replicate waits NetAction.awaitMemoryFreed
        ++ [NetAction.putEgpRequest, NetAction.awaitEgpResult],
      ck_result_writes cfg pair_index
          (gen_duration_us cfg.start_time pd.res_time) (bellValue pd.bell)
        ++ [NetAction.sendProcessorMsg wroteToArrayMsg], ?_, ?_, ?_⟩
    · unfold ck_create_pair_trace
      simp [List.append_assoc]
    · simp [List.filter_append, List.filter_cons, is_exec_program]
    · simp [List.filter_append, List.filter_cons, is_exec_program,
        ck_writes_filter_exec]
  · unfold ck_receive_pair_trace
    simp [List.filter_append, List.filter_cons, is_exec_program,
      ck_writes_filter_exec]

/-- C3 counterexample to the claim as stated: in the measure-directly create
handler (one of the handlers the claim quantifies over), an
AllocationExhausted raised by `allocate_comm` IS surfaced out of the
handler: with all comm slots taken, the handler run ends in the uncaught
AllocError fault instead of suspending and retrying. -/
theorem claim_c3_counterexample :
    handle_create_md_request ⟨0, 10, 2, 3, 9⟩ 1
        [⟨0, 0, BellIndex.B00⟩]
        ⟨1, {0}, {0}⟩
      = HandlerOutcome.fault
          (PyFault.allocExhausted (AllocError.exhausted msgNoCommQubits)) := by
  decide

/-- C3 (amended): the create-and-keep handlers (create and receive side)
never surface an AllocationExhausted condition — their comm-slot
acquisition retries via the memory-freed signal-wait loop for each pair —
while the measure-directly handlers (create and receive side) call
`allocate_comm` unguarded, so when no comm slot is free the
AllocationExhausted condition propagates out of the handler. -/
theorem claim_c3_comm_alloc_retry (cfg : CKConfig) (cfg2 : MDConfig)
    (pairs : List CKPairInput) (envs : List (List PhysicalQuantumMemory))
    (m : PhysicalQuantumMemory) (e : PyFault) (number : Nat)
    (results : List MDResult) (m2 : PhysicalQuantumMemory)
    (hfull : ∀ j, j < m2.qubit_count → j ∈ m2.comm_qubit_ids →
      j ∈ m2.allocated_ids)
    (hn : 1 ≤ number) :
    (handle_create_ck_request cfg pairs envs m ≠ HandlerOutcome.fault e)
    ∧ (handle_receive_ck_request cfg pairs envs m ≠ HandlerOutcome.fault e)
    ∧ (handle_create_md_request cfg2 number results m2
        = HandlerOutcome.fault
            (PyFault.allocExhausted (AllocError.exhausted msgNoCommQubits)))
    ∧ (handle_receive_md_request cfg2 number results m2
        = HandlerOutcome.fault
            (PyFault.allocExhausted (AllocError.exhausted msgNoCommQubits))) := by
  refine ⟨ck_create_loop_ne_fault cfg pairs 0 envs m e,
    ck_receive_loop_ne_fault cfg pairs 0 envs m e, ?_, ?_⟩
  · unfold handle_create_md_request
    rw [md_acquire_loop_exhausted number results m2 hfull hn]
    rfl
  · unfold handle_receive_md_request
    rw [md_acquire_loop_exhausted number results m2 hfull hn]
    rfl

theorem claim_c3_witness :
    (handle_create_ck_request ⟨0, 10, 7, 9, fun _ => 0, 0⟩ []
        [] (PhysicalQuantumMemory.init 1)
      ≠ HandlerOutcome.fault (PyFault.keyError 0))
    ∧ (handle_receive_ck_request ⟨0, 10, 7, 9, fun _ => 0, 0⟩ []
        [] (PhysicalQuantumMemory.init 1)
      ≠ HandlerOutcome.fault (PyFault.keyError 0))
    ∧ (handle_create_md_request ⟨0, 10, 2, 3, 9⟩ 1 [] ⟨1, {0}, {0}⟩
        = HandlerOutcome.fault
            (PyFault.allocExhausted (AllocError.exhausted msgNoCommQubits)))
    ∧ (handle_receive_md_request ⟨0, 10, 2, 3, 9⟩ 1 [] ⟨1, {0}, {0}⟩
        = HandlerOutcome.fault
            (PyFault.allocExhausted (AllocError.exhausted msgNoCommQubits))) :=
  claim_c3_comm_alloc_retry ⟨0, 10, 7, 9, fun _ => 0, 0⟩ ⟨0, 10, 2, 3, 9⟩
    [] [] (PhysicalQuantumMemory.init 1) (PyFault.keyError 0) 1 [] ⟨1, {0}, {0}⟩
    (by decide) (by decide)

/-- C4 counterexample to the claim as stated: on the creator side of a
2-pair measure-directly request, the handler completes but sends exactly ONE
"wrote to array" processor notification for the whole batch, not one per
pair (which would be 2). -/
theorem claim_c4_counterexample :
    is_finished (handle_create_md_request ⟨0, 10, 2, 3, 9⟩ 2
        [⟨0, 0, BellIndex.B00⟩, ⟨1, 1, BellIndex.B01⟩]
        (PhysicalQuantumMemory.init 1)) = true
    ∧ ((outcome_trace (handle_create_md_request ⟨0, 10, 2, 3, 9⟩ 2
        [⟨0, 0, BellIndex.B00⟩, ⟨1, 1, BellIndex.B01⟩]
        (PhysicalQuantumMemory.init 1))).filter is_wrote_notify).length = 1 := by
  decide

/-- C4 (amended): in every completed measure-directly request of N >= 1
pairs, on both creator and receiver sides no result-array write occurs
before the Nth pair's result has been received (results are buffered and
written only after the full batch); after the batch is written the
receiver-side handler sends exactly one processor notification per pair
written (N in total), while the creator-side handler sends exactly one
notification for the entire batch. -/
theorem claim_c4_md_batching (cfg : MDConfig) (number : Nat)
    (results results2 : List MDResult) (m m2 : PhysicalQuantumMemory)
    (tr tr2 : List NetAction) (mf mf2 : PhysicalQuantumMemory)
    (hn : 1 ≤ number)
    (hc : handle_create_md_request cfg number results m
        = HandlerOutcome.finished (tr, mf))
    (hr : handle_receive_md_request cfg number results2 m2
        = HandlerOutcome.finished (tr2, mf2)) :
    ((before_nth_egp_await tr number).filter is_array_write = []
      ∧ (tr.filter is_wrote_notify).length = 1)
    ∧ ((before_nth_egp_await tr2 number).filter is_array_write = []
      ∧ (tr2.filter is_wrote_notify).length = number) := by
  unfold handle_create_md_request at hc
  unfold handle_receive_md_request at hr
  rw [ho_then_eq_finished] at hc hr
  obtain ⟨p, hacq, hfin⟩ := hc
  obtain ⟨p2, hacq2, hfin2⟩ := hr
  simp only [HandlerOutcome.finished.injEq, Prod.mk.injEq] at hfin hfin2
  obtain ⟨hc1, -⟩ := hfin
  obtain ⟨hr1, -⟩ := hfin2
  obtain ⟨hsh, hlen⟩ :=
    md_acquire_loop_finished number results m p.1 p.2 (by rw [hacq])
  obtain ⟨hsh2, hlen2⟩ :=
    md_acquire_loop_finished number results2 m2 p2.1 p2.2 (by rw [hacq2])
  subst hc1
  subst hr1
  rw [hsh, hsh2]
  have hrepl : ∀ s : String,
      ¬ (is_wrote_notify NetAction.awaitEgpResult = true) := by
    intro _; simp [is_wrote_notify]
  have hc1 : is_egp_await NetAction.putEgpRequest = false := rfl
  have hc2 : is_egp_await NetAction.putEgpReceive = false := rfl
  constructor
  · constructor
    · rw [before_nth_cons_not_await NetAction.putEgpRequest _ number hc1,
        List.append_assoc, before_nth_replicate_await _ number hn]
      simp [List.filter_cons, is_array_write, List.filter_replicate_of_neg]
    · simp only [List.filter_cons, is_wrote_notify, List.filter_append]
      rw [List.filter_replicate_of_neg (hrepl "")]
      rw [md_blocks_filter_notify_create]
      simp [is_wrote_notify]
  · constructor
    · rw [before_nth_cons_not_await NetAction.putEgpReceive _ number hc2,
        before_nth_replicate_await _ number hn]
      simp [List.filter_cons, is_array_write, List.filter_replicate_of_neg]
    · simp only [List.filter_cons, is_wrote_notify, List.filter_append]
      rw [List.filter_replicate_of_neg (hrepl "")]
      simp only [Bool.false_eq_true, if_false, List.nil_append]
      rw [md_blocks_filter_notify_receive]
      simp only [List.enum_length, List.length_take]
      omega

theorem claim_c4_witness :
    ((before_nth_egp_await
        (outcome_trace (handle_create_md_request ⟨0, 10, 2, 3, 9⟩ 1
          [⟨0, 0, BellIndex.B00⟩] (PhysicalQuantumMemory.init 1))) 1).filter
        is_array_write = []
      ∧ ((outcome_trace (handle_create_md_request ⟨0, 10, 2, 3, 9⟩ 1
          [⟨0, 0, BellIndex.B00⟩] (PhysicalQuantumMemory.init 1))).filter
          is_wrote_notify).length = 1)
    ∧ ((before_nth_egp_await
        (outcome_trace (handle_receive_md_request ⟨0, 10, 2, 3, 9⟩ 1
          [⟨0, 0, BellIndex.B00⟩] (PhysicalQuantumMemory.init 1))) 1).filter
        is_array_write = []
      ∧ ((outcome_trace (handle_receive_md_request ⟨0, 10, 2, 3, 9⟩ 1
          [⟨0, 0, BellIndex.B00⟩] (PhysicalQuantumMemory.init 1))).filter
          is_wrote_notify).length = 1) := by
  have h := claim_c4_md_batching ⟨0, 10, 2, 3, 9⟩ 1
    [⟨0, 0, BellIndex.B00⟩] [⟨0, 0, BellIndex.B00⟩]
    (PhysicalQuantumMemory.init 1) (PhysicalQuantumMemory.init 1)
    (outcome_trace (handle_create_md_request ⟨0, 10, 2, 3, 9⟩ 1
      [⟨0, 0, BellIndex.B00⟩] (PhysicalQuantumMemory.init 1)))
    (outcome_trace (handle_receive_md_request ⟨0, 10, 2, 3, 9⟩ 1
      [⟨0, 0, BellIndex.B00⟩] (PhysicalQuantumMemory.init 1)))
    (PhysicalQuantumMemory.init 1) (PhysicalQuantumMemory.init 1)
    (by decide) (by decide) (by decide)
  exact h

/-- C6: each pair's result writes on the CK create path land exactly at
array offsets `slice_len * pair_index + j` for `j < slice_len`, with the
goodness field equal to the truncation of the nanosecond clock delta since
the start of the whole request divided by 1000, the Bell-state field equal
to the reported Bell index's value, and every other field the sentinel
-1. -/
theorem claim_c6_ck_result_slice (cfg : CKConfig) (pair_index : Nat)
    (pd : CKPairInput) (waits phys : Nat)
    (hG : cfg.idx_goodness < cfg.slice_len)
    (hB : cfg.idx_bell_state < cfg.slice_len)
    (hne : cfg.idx_goodness ≠ cfg.idx_bell_state) :
    ((ck_create_pair_trace cfg pair_index pd waits phys).filter is_array_write
      = (List.range cfg.slice_len).map fun j =>
          NetAction.setArrayValue cfg.result_array_addr
            (cfg.slice_len * pair_index + j)
            (if j = cfg.idx_goodness
              then int_trunc ((pd.res_time - cfg.start_time) / 1000)
              else if j = cfg.idx_bell_state then bellValue pd.bell else -1))
    ∧ (((ck_create_pair_trace cfg pair_index pd waits phys).filter
          is_array_write)[cfg.idx_goodness]?
        = some (NetAction.setArrayValue cfg.result_array_addr
            (cfg.slice_len * pair_index + cfg.idx_goodness)
            (int_trunc ((pd.res_time - cfg.start_time) / 1000))))
    ∧ (((ck_create_pair_trace cfg pair_index pd waits phys).filter
          is_array_write)[cfg.idx_bell_state]?
        = some (NetAction.setArrayValue cfg.result_array_addr
            (cfg.slice_len * pair_index + cfg.idx_bell_state)
            (bellValue pd.bell))) := by
  have hval : ∀ j, ck_slice_value cfg
      (gen_duration_us cfg.start_time pd.res_time) (bellValue pd.bell) j
      = (if j = cfg.idx_goodness
          then int_trunc ((pd.res_time - cfg.start_time) / 1000)
          else if j = cfg.idx_bell_state then bellValue pd.bell else -1) := by
    intro j
    unfold ck_slice_value gen_duration_us
    by_cases h1 : j = cfg.idx_goodness
    · subst h1
      simp [hne]
    · by_cases h2 : j = cfg.idx_bell_state
      · subst h2
        simp [h1]
      · simp [h1, h2]
  have hfilter : (ck_create_pair_trace cfg pair_index pd waits phys).filter
      is_array_write
      = (List.range cfg.slice_len).map fun j =>
          NetAction.setArrayValue cfg.result_array_addr
            (cfg.slice_len * pair_index + j)
            (if j = cfg.idx_goodness
              then int_trunc ((pd.res_time - cfg.start_time) / 1000)
              else if j = cfg.idx_bell_state then bellValue pd.bell else -1) := by
    have hrep : ¬ (is_array_write NetAction.awaitMemoryFreed = true) := by
      simp [is_array_write]
    unfold ck_create_pair_trace
    simp only [List.filter_append, List.filter_cons, is_array_write,
      corr_filter_write, ck_writes_filter_write,
      List.filter_replicate_of_neg hrep]
    simp only [List.nil_append, List.append_nil, List.filter_nil,
      if_false, Bool.false_eq_true]
    unfold ck_result_writes
    exact List.map_congr_left fun j _ => by rw [hval j]
  have hne2 : cfg.idx_bell_state ≠ cfg.idx_goodness := fun h => hne h.symm
  refine ⟨hfilter, ?_, ?_⟩
  · rw [hfilter]
    rw [List.getElem?_map, List.getElem?_range hG]
    simp
  · rw [hfilter]
    rw [List.getElem?_map, List.getElem?_range hB]
    simp [hne2]

theorem claim_c6_witness :
    ((ck_create_pair_trace ⟨0, 10, 7, 9, fun _ => 0, 0⟩ 0
        ⟨BellIndex.B01, 2500⟩ 0 0).filter is_array_write
      = (List.range 10).map fun j =>
          NetAction.setArrayValue 0 (10 * 0 + j)
            (if j = 7 then int_trunc (((2500 : Rat) - 0) / 1000)
              else if j = 9 then bellValue BellIndex.B01 else -1))
    ∧ (((ck_create_pair_trace ⟨0, 10, 7, 9, fun _ => 0, 0⟩ 0
          ⟨BellIndex.B01, 2500⟩ 0 0).filter is_array_write)[(7 : Nat)]?
        = some (NetAction.setArrayValue 0 (10 * 0 + 7)
            (int_trunc (((2500 : Rat) - 0) / 1000))))
    ∧ (((ck_create_pair_trace ⟨0, 10, 7, 9, fun _ => 0, 0⟩ 0
          ⟨BellIndex.B01, 2500⟩ 0 0).filter is_array_write)[(9 : Nat)]?
        = some (NetAction.setArrayValue 0 (10 * 0 + 9)
            (bellValue BellIndex.B01))) :=
  claim_c6_ck_result_slice ⟨0, 10, 7, 9, fun _ => 0, 0⟩ 0
    ⟨BellIndex.B01, 2500⟩ 0 0 (by decide) (by decide) (by decide)

end Squidasm
